import Mathlib

/-!
# Verification of the txt2gp qPCR processing core

A shallow embedding of the numeric processing pipeline of the txt2gp
repository (ΔΔCT gene-expression analysis): statistics primitives,
replica grouping, delta calculation, and fold-change normalization,
together with theorems settling the specification claims.

JavaScript numbers are modelled by an arbitrary linear ordered field `α`
(instantiated at `ℝ` for the claims that pin exact values of `2^(-x)`,
and at `ℚ` for executable witnesses).  The two non-field numeric
primitives the source uses, `Math.sqrt` and `x ↦ Math.pow(2, -x)`, are
packaged in a `NumOps` record passed to the definitions that need them.
-/

namespace Txt2gp

/-- The non-field numeric primitives used by the processing pipeline:
`sqrt` models `Math.sqrt` and `pow2neg d` models `Math.pow(2, -d)`. -/
structure NumOps (α : Type) where
  sqrt : α → α
  pow2neg : α → α

/-- The instantiation of `NumOps` at the real numbers, matching the
JavaScript semantics of `Math.sqrt` and `Math.pow(2, -d)`. -/
noncomputable def realOps : NumOps ℝ :=
  ⟨Real.sqrt, fun d => (2 : ℝ) ^ (-d)⟩

/-- From `src/types/index.ts`: a single CT value measurement
(`value`, `rowIndex`). -/
structure CtMeasurement (α : Type) where
  value : α
  rowIndex : ℕ
deriving DecidableEq

/-- From `src/types/index.ts`: grouped replica measurements for a sample. -/
structure ReplicaGroup (α : Type) where
  sampleName : String
  sampleNumber : ℕ
  ctValues : List α
deriving DecidableEq

/-- From `src/types/index.ts`: gene data extracted from input. -/
structure GeneData (α : Type) where
  name : String
  measurements : List (CtMeasurement α)
  replicaGroups : List (ReplicaGroup α)
deriving DecidableEq

/-- From `src/types/index.ts`: configuration for data processing. -/
structure ProcessingConfig where
  replicaCount : ℕ
  housekeeper : String
  samples : List String
  controls : List String
deriving DecidableEq

/-- From `src/types/index.ts`: a single row of the processing table.
The optional `replicaIndex` of the source is an `Option ℕ` (absent on
summary rows). -/
structure ProcessingTableRow (α : Type) where
  sampleNumber : ℕ
  sampleName : String
  ctValues : List α
  ctStd : α
  ctMean : α
  hkCtValues : List α
  hkCtStd : α
  hkCtMean : α
  deltaCt : α
  deltaDeltaCt : α
  combinedStd : α
  foldChange : α
  sem : α
  isReplicaRow : Bool
  replicaIndex : Option ℕ
deriving DecidableEq

/-- From `src/types/index.ts`: complete processing result for a gene. -/
structure GeneProcessingResult (α : Type) where
  geneName : String
  rows : List (ProcessingTableRow α)
  firstDeltaCt : α
deriving DecidableEq

/-- From `src/types/index.ts`: a row of the 2^-ΔΔCT values table. -/
structure FoldChangeTableRow (α : Type) where
  controlName : String
  controlFoldChange : α
  observedName : String
  observedFoldChange : α
deriving DecidableEq

/-- From `src/types/index.ts`: a row of the normalized values table. -/
structure NormalizedTableRow (α : Type) where
  controlName : String
  normalizedControl : α
  observedName : String
  normalizedObserved : α
deriving DecidableEq

/-- From `src/types/index.ts`: complete output for a gene. -/
structure GeneOutputResult (α : Type) where
  geneName : String
  foldChangeRows : List (FoldChangeTableRow α)
  controlAverage : α
  normalizedRows : List (NormalizedTableRow α)
deriving DecidableEq

section Statistics

variable {α : Type} [LinearOrderedField α]

/-- From `src/modules/processing/statistics.ts`, `mean`: the arithmetic
mean of a list, `0` for the empty list.  The source's
`reduce((acc, val) => acc + val, 0)` is a left fold from `0`. -/
def mean (values : List α) : α :=
  if values.length = 0 then 0
  else values.foldl (· + ·) 0 / (values.length : α)

/-- From `src/modules/processing/statistics.ts`, `standardDeviation`:
sample standard deviation (divisor `n - 1`), `0` when fewer than two
values. -/
def standardDeviation (ops : NumOps α) (values : List α) : α :=
  if values.length < 2 then 0
  else
    ops.sqrt
      ((values.map (fun v => (v - mean values) ^ 2)).foldl (· + ·) 0 /
        ((values.length : α) - 1))

/-- From `src/modules/processing/statistics.ts`,
`combinedStandardDeviation`: `sqrt(std1^2 + std2^2)`. -/
def combinedStandardDeviation (ops : NumOps α) (std1 std2 : α) : α :=
  ops.sqrt (std1 ^ 2 + std2 ^ 2)

/-- From `src/modules/processing/statistics.ts`, `sem`:
`combinedStd / sqrt((n1 + n2) / 2)`, `0` when `n1 + n2 = 0`. -/
def sem (ops : NumOps α) (combinedStd : α) (n1 n2 : ℕ) : α :=
  if n1 + n2 = 0 then 0
  else combinedStd / ops.sqrt (((n1 + n2 : ℕ) : α) / 2)

/-- From `src/modules/processing/statistics.ts`, `foldChange`:
`2 ^ (-deltaDeltaCt)`. -/
def foldChange (ops : NumOps α) (deltaDeltaCt : α) : α :=
  ops.pow2neg deltaDeltaCt

/-- From `src/modules/processing/statistics.ts`, `roundTo`: round to a
number of decimal places.  JavaScript `Math.round(x)` is modelled as
`⌊x + 1/2⌋` (round half toward positive infinity). -/
def roundTo [FloorRing α] (value : α) (decimals : ℕ) : α :=
  ((⌊value * 10 ^ decimals + 1 / 2⌋ : ℤ) : α) / 10 ^ decimals

end Statistics

section Grouping

variable {α : Type}

/-- The loop body of `groupIntoReplicas` from
`src/modules/processing/ct-calculator.ts`, with the running sample index
`i` explicit.  The source `break`s (returning the groups built so far)
as soon as `startIndex + replicaCount` exceeds the number of
measurements; `slice(startIndex, endIndex)` is `drop` then `take`. -/
def groupReplicasFrom (measurements : List (CtMeasurement α))
    (replicaCount : ℕ) : List String → ℕ → List (ReplicaGroup α)
  | [], _ => []
  | name :: rest, i =>
      if i * replicaCount + replicaCount ≤ measurements.length then
        { sampleName := name
          sampleNumber := i + 1
          ctValues :=
            ((measurements.drop (i * replicaCount)).take replicaCount).map
              CtMeasurement.value } ::
          groupReplicasFrom measurements replicaCount rest (i + 1)
      else []

/-- From `src/modules/processing/ct-calculator.ts`, `groupIntoReplicas`:
partition a gene's measurements into per-sample replica groups. -/
def groupIntoReplicas (measurements : List (CtMeasurement α))
    (replicaCount : ℕ) (sampleNames : List String) : List (ReplicaGroup α) :=
  groupReplicasFrom measurements replicaCount sampleNames 0

end Grouping

section Delta

variable {α : Type} [LinearOrderedField α]

/-- From `src/modules/processing/delta-calculator.ts`,
`calculateProcessingRows`.  The source loops over
`targetGene.replicaGroups` by index and `continue`s when either the
target or the housekeeper group at that index is missing, which pairs
the two group lists by position (`zip`).  Pass 1 collects the per-sample
ΔCT values; the reference ΔΔCT baseline is the first one (`0` when there
are none).  Pass 2 emits one summary row per paired sample followed by
one replica row per replicate index `r < replicaCount` that has a target
CT value (`hkGroup.ctValues[r] ?? 0` is `getD r 0`). -/
def calculateProcessingRows (ops : NumOps α) (targetGene hkGene : GeneData α)
    (config : ProcessingConfig) : List (ProcessingTableRow α) :=
  let pairs := targetGene.replicaGroups.zip hkGene.replicaGroups
  let deltaCts := pairs.map fun p => mean p.1.ctValues - mean p.2.ctValues
  let referenceDeltaCt := deltaCts.headD 0
  pairs.flatMap fun p =>
    let ctMean := mean p.1.ctValues
    let ctStd := standardDeviation ops p.1.ctValues
    let hkMean := mean p.2.ctValues
    let hkStd := standardDeviation ops p.2.ctValues
    let deltaCt := ctMean - hkMean
    let deltaDeltaCt := deltaCt - referenceDeltaCt
    let combinedStd := combinedStandardDeviation ops ctStd hkStd
    let semValue := sem ops combinedStd config.replicaCount config.replicaCount
    let foldChangeValue := foldChange ops deltaDeltaCt
    ({ sampleNumber := p.1.sampleNumber
       sampleName := p.1.sampleName
       ctValues := p.1.ctValues
       ctStd := ctStd
       ctMean := ctMean
       hkCtValues := p.2.ctValues
       hkCtStd := hkStd
       hkCtMean := hkMean
       deltaCt := deltaCt
       deltaDeltaCt := deltaDeltaCt
       combinedStd := combinedStd
       foldChange := foldChangeValue
       sem := semValue
       isReplicaRow := false
       replicaIndex := none } : ProcessingTableRow α) ::
      (List.range config.replicaCount).filterMap fun r =>
        if r < p.1.ctValues.length then
          some
            { sampleNumber := p.1.sampleNumber
              sampleName := p.1.sampleName
              ctValues := [p.1.ctValues.getD r 0]
              ctStd := 0
              ctMean := 0
              hkCtValues := [p.2.ctValues.getD r 0]
              hkCtStd := 0
              hkCtMean := 0
              deltaCt := 0
              deltaDeltaCt := 0
              combinedStd := 0
              foldChange := 0
              sem := 0
              isReplicaRow := true
              replicaIndex := some r }
        else none

/-- From `src/modules/processing/delta-calculator.ts`, `processGene`:
the rows together with the ΔCT of the first summary row (`0` when there
is none). -/
def processGene (ops : NumOps α) (targetGene hkGene : GeneData α)
    (config : ProcessingConfig) : GeneProcessingResult α :=
  let rows := calculateProcessingRows ops targetGene hkGene config
  { geneName := targetGene.name
    rows := rows
    firstDeltaCt :=
      ((rows.find? fun r => !r.isReplicaRow).map ProcessingTableRow.deltaCt).getD 0 }

/-- From `src/modules/processing/delta-calculator.ts`, `processAllGenes`.
The gene map (a JavaScript `Map`, iteration in insertion order) is
modelled as an association list; the source throws when the housekeeper
gene is absent and otherwise processes every other gene. -/
def processAllGenes (ops : NumOps α) (geneDataMap : List (String × GeneData α))
    (housekeeperName : String) (config : ProcessingConfig) :
    Except String (List (String × GeneProcessingResult α)) :=
  match geneDataMap.lookup housekeeperName with
  | none =>
      Except.error
        ("Housekeeper gene \"" ++ housekeeperName ++ "\" not found")
  | some housekeeperData =>
      Except.ok
        (geneDataMap.filterMap fun p =>
          if p.1 = housekeeperName then none
          else some (p.1, processGene ops p.2 housekeeperData config))

end Delta

section Normalizer

variable {α : Type} [LinearOrderedField α]

/-- From `src/main.ts`, `buildFoldChangeTable`: positionally pair
control samples with non-control ("observed") samples and look up each
name's fold change among the gene's summary rows (`0` when absent,
empty-name slots when the two lists have different lengths). -/
def buildFoldChangeTable (result : GeneProcessingResult α)
    (controls allSamples : List String) : List (FoldChangeTableRow α) :=
  let observed := allSamples.filter fun s => !controls.contains s
  let observedSamples := observed.take (min observed.length controls.length)
  let rowCount := max controls.length observedSamples.length
  (List.range rowCount).map fun i =>
    let controlName := controls.getD i ""
    let observedName := observedSamples.getD i ""
    let controlRow :=
      result.rows.find? fun r => !r.isReplicaRow && r.sampleName == controlName
    let observedRow :=
      result.rows.find? fun r => !r.isReplicaRow && r.sampleName == observedName
    { controlName := controlName
      controlFoldChange := (controlRow.map ProcessingTableRow.foldChange).getD 0
      observedName := observedName
      observedFoldChange := (observedRow.map ProcessingTableRow.foldChange).getD 0 }

/-- From `src/main.ts`, `calculateControlAverage`: the mean of
`controlFoldChange` over the rows with a non-empty control name and a
positive control fold change, `1` when no row qualifies. -/
def calculateControlAverage (foldChangeRows : List (FoldChangeTableRow α)) : α :=
  let controlValues :=
    (foldChangeRows.filter fun row =>
        decide (row.controlName ≠ "" ∧ 0 < row.controlFoldChange)).map
      FoldChangeTableRow.controlFoldChange
  if 0 < controlValues.length then mean controlValues else 1

/-- From `src/main.ts`, `buildNormalizedTable`: divide both fold-change
values of every row by the control average, substituting `1` for a zero
average. -/
def buildNormalizedTable (foldChangeRows : List (FoldChangeTableRow α))
    (controlAverage : α) : List (NormalizedTableRow α) :=
  let divisor := if controlAverage = 0 then 1 else controlAverage
  foldChangeRows.map fun row =>
    { controlName := row.controlName
      normalizedControl := row.controlFoldChange / divisor
      observedName := row.observedName
      normalizedObserved := row.observedFoldChange / divisor }

/-- From `src/main.ts`, `generateGeneOutput`: compose the fold-change
table, the control average (rounded to 4 decimals only in the stored
field) and the normalized table (computed from the unrounded average). -/
def generateGeneOutput [FloorRing α] (result : GeneProcessingResult α)
    (controls allSamples : List String) : GeneOutputResult α :=
  let foldChangeRows := buildFoldChangeTable result controls allSamples
  let controlAverage := calculateControlAverage foldChangeRows
  let normalizedRows := buildNormalizedTable foldChangeRows controlAverage
  { geneName := result.geneName
    foldChangeRows := foldChangeRows
    controlAverage := roundTo controlAverage 4
    normalizedRows := normalizedRows }

end Normalizer

section Input

/-- A JavaScript number as produced by `parseFloat`: NaN, one of the two
infinities, or a finite value (modelled as a rational). -/
inductive JSNum where
  | nan
  | inf
  | negInf
  | fin (q : ℚ)
deriving DecidableEq

/-- The JavaScript `isNaN` test on a parse result. -/
def JSNum.isNaN : JSNum → Bool
  | .nan => true
  | _ => false

/-- The JavaScript `Number.isFinite` test on a parse result. -/
def JSNum.isFinite : JSNum → Bool
  | .fin _ => true
  | _ => false

/-- The JavaScript comparison `num > 0` on a parse result (`NaN > 0` is
false, `Infinity > 0` is true). -/
def JSNum.gtZero : JSNum → Bool
  | .inf => true
  | .fin q => decide (0 < q)
  | _ => false

/-- Both ends of a character list trimmed of whitespace (the JavaScript
`String.trim`). -/
def charsTrim (cs : List Char) : List Char :=
  ((cs.dropWhile Char.isWhitespace).reverse.dropWhile Char.isWhitespace).reverse

/-- ASCII lower-casing of one character (the JavaScript `toLowerCase`
on the ASCII range met here). -/
def lowerChar (c : Char) : Char :=
  if 'A' ≤ c ∧ c ≤ 'Z' then Char.ofNat (c.toNat + 32) else c

/-- Whether the character list `ns` occurs as a contiguous run at the
start of `hs`. -/
def charsStartWith : List Char → List Char → Bool
  | _, [] => true
  | [], _ :: _ => false
  | h :: hs, n :: ns => h == n && charsStartWith hs ns

/-- Whether the character list `ns` occurs contiguously anywhere in
`hs` (the JavaScript `String.includes`). -/
def charsContain : List Char → List Char → Bool
  | [], ns => ns.isEmpty
  | h :: hs, ns => charsStartWith (h :: hs) ns || charsContain hs ns

/-- The numeric value of a run of decimal digit characters, read left to
right. -/
def digitsVal (cs : List Char) : ℕ :=
  cs.foldl (fun a c => 10 * a + (c.toNat - '0'.toNat)) 0

/-- The unsigned-decimal fragment of the JavaScript `parseFloat`
grammar: a digit run, optionally followed by a point and another digit
run, at least one digit in total; trailing garbage is ignored. -/
def parseDecimal (cs : List Char) : Option ℚ :=
  let intPart := cs.takeWhile Char.isDigit
  let rest := cs.dropWhile Char.isDigit
  match rest with
  | '.' :: rest2 =>
      let fracPart := rest2.takeWhile Char.isDigit
      if intPart.isEmpty && fracPart.isEmpty then none
      else
        some ((digitsVal intPart : ℚ) +
          (digitsVal fracPart : ℚ) / 10 ^ fracPart.length)
  | _ => if intPart.isEmpty then none else some (digitsVal intPart : ℚ)

/-- Models the JavaScript built-in `parseFloat` on the fragment of
inputs this pipeline meets: leading/trailing whitespace is skipped, an
optional sign is followed by either the literal `Infinity` or a decimal
numeral (exponent notation is not modelled), anything else is NaN. -/
def jsParseFloat (s : String) : JSNum :=
  match charsTrim s.toList with
  | '-' :: rest =>
      if charsStartWith rest "Infinity".toList then JSNum.negInf
      else
        match parseDecimal rest with
        | some q => JSNum.fin (-q)
        | none => JSNum.nan
  | '+' :: rest =>
      if charsStartWith rest "Infinity".toList then JSNum.inf
      else
        match parseDecimal rest with
        | some q => JSNum.fin q
        | none => JSNum.nan
  | cs =>
      if charsStartWith cs "Infinity".toList then JSNum.inf
      else
        match parseDecimal cs with
        | some q => JSNum.fin q
        | none => JSNum.nan

/-- From `src/types/index.ts`, `RawDataRow`: a row of the parsed TSV
file, a mapping from column name to cell string (association list). -/
def RawDataRow : Type := List (String × String)

/-- The JavaScript member access `row[header]`, which yields the cell
string (an absent key, `undefined`, behaves like the empty string at
every use site modelled here). -/
def rowGet (row : RawDataRow) (header : String) : String :=
  ((row : List (String × String)).lookup header).getD ""

/-- From `src/types/index.ts`, `ParsedTsvData`: title, ordered column
headers, ordered data rows. -/
structure ParsedTsvData where
  title : String
  headers : List String
  rows : List RawDataRow

/-- The regular expression `/^Sample\s*\d+$/i` applied to a trimmed
name, from `shouldIgnoreRow` in `src/modules/input/tsv-parser.ts`:
case-insensitively the word `Sample`, optional whitespace, then one or
more digits up to the end. -/
def isSampleMarker (s : String) : Bool :=
  let t := (charsTrim s.toList).map lowerChar
  charsStartWith t "sample".toList &&
    (let digits := (t.drop 6).dropWhile Char.isWhitespace
     !digits.isEmpty && digits.all Char.isDigit)

/-- From `src/modules/input/tsv-parser.ts`, `shouldIgnoreRow`: a row is
a marker/control-definition row when its `Name` field matches
`/^Sample\s*\d+$/i`. -/
def shouldIgnoreRow (row : RawDataRow) : Bool :=
  isSampleMarker (rowGet row "Name")

/-- The JavaScript `haystack.includes(needle)` on strings. -/
def strContainsSub (haystack needle : String) : Bool :=
  charsContain haystack.toList needle.toList

/-- From `src/modules/input/tsv-parser.ts`, `detectCtColumn`: first a
case-insensitive exact header match on `cp`/`ct`/`cq`, then a header
containing one of those substrings, then the first non-`Name` column
with a positive decimal-point value in some row. -/
def detectCtColumn (data : ParsedTsvData) : Option String :=
  match ["cp", "ct", "cq"].findSome? fun n =>
      data.headers.find? fun h => h.toList.map lowerChar == n.toList with
  | some h => some h
  | none =>
    match ["cp", "ct", "cq"].findSome? fun n =>
        data.headers.find? fun h =>
          charsContain (h.toList.map lowerChar) n.toList with
    | some h => some h
    | none =>
        data.headers.find? fun h =>
          h != "Name" &&
            data.rows.any fun row =>
              let v := rowGet row h
              v != "" &&
                (let n := jsParseFloat v
                 !n.isNaN && n.gtZero && v.toList.contains '.')

/-- The gene record built by `extractGeneData`: name and measurements
(`parseFloat` result paired with the original row index).  The
`replicaGroups` field of the source's `GeneData`, still empty at this
stage and filled only later by `buildGeneDataWithGroups`, is omitted. -/
structure JSGeneData where
  name : String
  measurements : List (JSNum × ℕ)
deriving DecidableEq

/-- Record one measurement under a gene name in the insertion-ordered
gene map: append to an existing gene's measurements, or append a new
gene at the end of the map (JavaScript `Map` insertion-order
semantics). -/
def insertMeasurement (m : List (String × JSGeneData)) (name : String)
    (v : JSNum) (idx : ℕ) : List (String × JSGeneData) :=
  match m with
  | [] => [(name, ⟨name, [(v, idx)]⟩)]
  | (n, g) :: rest =>
      if n = name then (n, ⟨g.name, g.measurements ++ [(v, idx)]⟩) :: rest
      else (n, g) :: insertMeasurement rest name v idx

/-- The row loop of `extractGeneData` from
`src/modules/processing/ct-calculator.ts`, with the running row index
explicit: skip marker rows, rows without a name, and rows whose CT cell
parses to NaN; record everything else. -/
def extractGo (ctCol : String) : List RawDataRow → ℕ →
    List (String × JSGeneData) → List (String × JSGeneData)
  | [], _, acc => acc
  | row :: rest, idx, acc =>
      if shouldIgnoreRow row then extractGo ctCol rest (idx + 1) acc
      else
        let geneName := rowGet row "Name"
        if geneName = "" then extractGo ctCol rest (idx + 1) acc
        else
          let ctValue := jsParseFloat (rowGet row ctCol)
          if ctValue.isNaN then extractGo ctCol rest (idx + 1) acc
          else extractGo ctCol rest (idx + 1)
            (insertMeasurement acc geneName ctValue idx)

/-- From `src/modules/processing/ct-calculator.ts`, `extractGeneData`:
detect the CT column (an error when none is found) and fold the rows
into the insertion-ordered gene map. -/
def extractGeneData (data : ParsedTsvData) :
    Except String (List (String × JSGeneData)) :=
  match detectCtColumn data with
  | none => Except.error "Could not detect CT value column"
  | some ctCol => Except.ok (extractGo ctCol data.rows 0 [])

end Input

/-! ## Helper lemmas -/

section GroupingLemmas

variable {α : Type}

/-- Positional characterization of the grouping loop: the group at
position `k` exists exactly when `k` is a valid sample index whose slice
fits, and then it is the slice starting at `(i + k) * replicaCount`. -/
theorem groupReplicasFrom_get? (measurements : List (CtMeasurement α))
    (replicaCount : ℕ) :
    ∀ (names : List String) (i k : ℕ),
      (groupReplicasFrom measurements replicaCount names i).get? k =
        if k < names.length ∧
            (i + k) * replicaCount + replicaCount ≤ measurements.length then
          some
            { sampleName := names.getD k ""
              sampleNumber := i + k + 1
              ctValues :=
                ((measurements.drop ((i + k) * replicaCount)).take
                    replicaCount).map CtMeasurement.value }
        else none := by
  intro names
  induction names with
  | nil =>
      intro i k
      simp [groupReplicasFrom]
  | cons name rest ih =>
      intro i k
      by_cases h : i * replicaCount + replicaCount ≤ measurements.length
      · rw [groupReplicasFrom, if_pos h]
        cases k with
        | zero =>
            simp [h]
        | succ k =>
            have hidx : i + (k + 1) = (i + 1) + k := by omega
            rw [List.get?_cons_succ, ih (i + 1) k, hidx]
            simp [List.getD]
      · rw [groupReplicasFrom, if_neg h]
        have hk : ¬ ((i + k) * replicaCount + replicaCount ≤
            measurements.length) := by
          intro hle
          exact h (le_trans (by
            have := Nat.mul_le_mul_right replicaCount (Nat.le_add_right i k)
            omega) hle)
        simp [hk]

end GroupingLemmas

/-! ## Claims -/

/-- C2: for every measurement list, every `replicaCount ≥ 1` and every
sample-name list, `groupIntoReplicas` produces for sample index `i` a
group whose `ctValues` are exactly the contiguous slice
`measurements[i*replicaCount : i*replicaCount + replicaCount]`, with
`sampleNumber = i + 1` and the caller-supplied name; whenever the
computed end index exceeds the number of measurements, that sample and
all subsequent samples are omitted entirely, never truncated. -/
theorem groupIntoReplicas_slices {α : Type}
    (measurements : List (CtMeasurement α)) (replicaCount : ℕ)
    (sampleNames : List String) (hrc : 1 ≤ replicaCount) :
    (∀ i, i < sampleNames.length →
        i * replicaCount + replicaCount ≤ measurements.length →
        (groupIntoReplicas measurements replicaCount sampleNames).get? i =
          some
            { sampleName := sampleNames.getD i ""
              sampleNumber := i + 1
              ctValues :=
                ((measurements.drop (i * replicaCount)).take
                    replicaCount).map CtMeasurement.value }) ∧
    (∀ i, measurements.length < i * replicaCount + replicaCount →
        (groupIntoReplicas measurements replicaCount sampleNames).get? i =
          none) := by
  constructor
  · intro i hi hfit
    rw [groupIntoReplicas, groupReplicasFrom_get? measurements replicaCount
      sampleNames 0 i]
    simp only [Nat.zero_add]
    rw [if_pos ⟨hi, hfit⟩]
  · intro i hover
    rw [groupIntoReplicas, groupReplicasFrom_get? measurements replicaCount
      sampleNames 0 i]
    simp only [Nat.zero_add]
    rw [if_neg (by omega)]

/-- Witness for C2 at the spec's boundary example: 5 measurements,
`replicaCount = 3`, two sample names give exactly one group holding the
first three measurements; the second sample is omitted. -/
theorem groupIntoReplicas_slices_witness :
    1 ≤ 3 ∧ (0 : ℕ) < 2 ∧ 0 * 3 + 3 ≤ 5 ∧ (5 : ℕ) < 1 * 3 + 3 ∧
    (groupIntoReplicas
        [(⟨1, 0⟩ : CtMeasurement ℚ), ⟨2, 1⟩, ⟨3, 2⟩, ⟨4, 3⟩, ⟨5, 4⟩] 3
        ["S1", "S2"]).get? 0 =
      some { sampleName := "S1", sampleNumber := 1, ctValues := [1, 2, 3] } ∧
    (groupIntoReplicas
        [(⟨1, 0⟩ : CtMeasurement ℚ), ⟨2, 1⟩, ⟨3, 2⟩, ⟨4, 3⟩, ⟨5, 4⟩] 3
        ["S1", "S2"]).get? 1 = none := by
  refine ⟨by decide, by decide, by decide, by decide, ?_, ?_⟩
  · exact ((groupIntoReplicas_slices
      [(⟨1, 0⟩ : CtMeasurement ℚ), ⟨2, 1⟩, ⟨3, 2⟩, ⟨4, 3⟩, ⟨5, 4⟩] 3
      ["S1", "S2"] (by decide)).1 0 (by decide) (by decide)).trans rfl
  · exact (groupIntoReplicas_slices
      [(⟨1, 0⟩ : CtMeasurement ℚ), ⟨2, 1⟩, ⟨3, 2⟩, ⟨4, 3⟩, ⟨5, 4⟩] 3
      ["S1", "S2"] (by decide)).2 1 (by decide)

/-- C10: every `ReplicaGroup` returned by `groupIntoReplicas` (for
`replicaCount ≥ 1`) has `ctValues` of length exactly `replicaCount`;
truncated groups are never emitted. -/
theorem groupIntoReplicas_group_length {α : Type}
    (measurements : List (CtMeasurement α)) (replicaCount : ℕ)
    (sampleNames : List String) (hrc : 1 ≤ replicaCount) :
    ∀ g ∈ groupIntoReplicas measurements replicaCount sampleNames,
      g.ctValues.length = replicaCount := by
  suffices h : ∀ (names : List String) (i : ℕ),
      ∀ g ∈ groupReplicasFrom measurements replicaCount names i,
        g.ctValues.length = replicaCount from h sampleNames 0
  intro names
  induction names with
  | nil => intro i g hg; simp [groupReplicasFrom] at hg
  | cons name rest ih =>
      intro i g hg
      rw [groupReplicasFrom] at hg
      by_cases h : i * replicaCount + replicaCount ≤ measurements.length
      · rw [if_pos h] at hg
        rcases List.mem_cons.mp hg with hhead | htail
        · subst hhead
          simp only [List.length_map, List.length_take, List.length_drop]
          omega
        · exact ih (i + 1) g htail
      · rw [if_neg h] at hg
        simp at hg

/-- Witness for C10: with `replicaCount = 3` and four measurements, the
emitted group has exactly three CT values. -/
theorem groupIntoReplicas_group_length_witness :
    1 ≤ 3 ∧
    ({ sampleName := "S1", sampleNumber := 1, ctValues := [1, 2, 3] } :
        ReplicaGroup ℚ) ∈
      groupIntoReplicas [(⟨1, 0⟩ : CtMeasurement ℚ), ⟨2, 1⟩, ⟨3, 2⟩, ⟨4, 3⟩]
        3 ["S1"] ∧
    (({ sampleName := "S1", sampleNumber := 1, ctValues := [1, 2, 3] } :
        ReplicaGroup ℚ)).ctValues.length = 3 := by
  refine ⟨by decide, by decide, ?_⟩
  exact groupIntoReplicas_group_length
    [(⟨1, 0⟩ : CtMeasurement ℚ), ⟨2, 1⟩, ⟨3, 2⟩, ⟨4, 3⟩] 3 ["S1"]
    (by decide) _ (by decide)

/-- C4: `processAllGenes` throws its lookup error exactly when the
housekeeper gene name is absent from the grouped gene map; on success
the result map has no entry for the housekeeper itself and every other
gene of the input map is processed into the result. -/
theorem processAllGenes_housekeeper_lookup {α : Type} [LinearOrderedField α]
    (ops : NumOps α) (geneDataMap : List (String × GeneData α))
    (housekeeperName : String) (config : ProcessingConfig) :
    ((∃ e, processAllGenes ops geneDataMap housekeeperName config =
        Except.error e) ↔ geneDataMap.lookup housekeeperName = none) ∧
    (∀ res, processAllGenes ops geneDataMap housekeeperName config =
        Except.ok res →
      (∀ p ∈ res, p.1 ≠ housekeeperName) ∧
      ∀ hkData, geneDataMap.lookup housekeeperName = some hkData →
        ∀ p ∈ geneDataMap, p.1 ≠ housekeeperName →
          (p.1, processGene ops p.2 hkData config) ∈ res) := by
  unfold processAllGenes
  cases h : geneDataMap.lookup housekeeperName with
  | none =>
      refine ⟨⟨fun _ => rfl, fun _ => ⟨_, rfl⟩⟩, ?_⟩
      intro res hres
      cases hres
  | some hkData =>
      constructor
      · constructor
        · rintro ⟨e, he⟩
          cases he
        · intro hnone
          cases hnone
      · intro res hres
        have hres' : geneDataMap.filterMap (fun p =>
            if p.1 = housekeeperName then none
            else some (p.1, processGene ops p.2 hkData config)) = res :=
          Except.ok.inj hres
        constructor
        · intro p hp
          rw [← hres'] at hp
          obtain ⟨a, _, ha⟩ := List.mem_filterMap.mp hp
          by_cases hah : a.1 = housekeeperName
          · rw [if_pos hah] at ha
            cases ha
          · rw [if_neg hah] at ha
            cases ha
            exact hah
        · intro hkData' hlookup p hp hne
          have : hkData' = hkData := (Option.some.inj hlookup).symm
          subst this
          rw [← hres']
          exact List.mem_filterMap.mpr ⟨p, hp, by rw [if_neg hne]⟩

/-- Witness for C4 on a two-gene map over `ℚ`: no error is thrown, the
housekeeper is absent from the result, and the other gene is processed. -/
theorem processAllGenes_housekeeper_lookup_witness :
    processAllGenes (⟨fun _ => 0, fun _ => 0⟩ : NumOps ℚ)
        [("HK", ⟨"HK", [], []⟩), ("G", ⟨"G", [], []⟩)] "HK"
        ⟨3, "HK", ["S1"], []⟩ =
      Except.ok [("G", ⟨"G", [], 0⟩)] ∧
    ("G", (⟨"G", [], 0⟩ : GeneProcessingResult ℚ)) ∈
      [("G", (⟨"G", [], 0⟩ : GeneProcessingResult ℚ))] := by
  refine ⟨rfl, ?_⟩
  have h := ((processAllGenes_housekeeper_lookup
      (⟨fun _ => 0, fun _ => 0⟩ : NumOps ℚ)
      [("HK", ⟨"HK", [], []⟩), ("G", ⟨"G", [], []⟩)] "HK"
      ⟨3, "HK", ["S1"], []⟩).2 [("G", ⟨"G", [], 0⟩)] rfl).2
    ⟨"HK", [], []⟩ rfl ("G", ⟨"G", [], []⟩) (by simp) (by decide)
  exact h

/-- C3 counterexample: a target gene with no paired samples against the
housekeeper is NOT dropped from the result map of `processAllGenes` —
it is kept, with an empty row list. -/
theorem processAllGenes_no_pairs_kept_counterexample :
    processAllGenes realOps
        [("GAPDH", ⟨"GAPDH", [], [⟨"S1", 1, [20]⟩]⟩),
         ("TP53", ⟨"TP53", [], []⟩)] "GAPDH" ⟨3, "GAPDH", ["S1"], []⟩ =
      Except.ok [("TP53", ⟨"TP53", [], 0⟩)] := by
  rfl

/-- C3 amended: for every grouped gene map containing the housekeeper,
a non-housekeeper gene with no paired samples against the reference gene
causes no error: `processAllGenes` succeeds and the gene is retained in
the result map with an empty row list and `firstDeltaCt = 0` (its
samples are dropped from the rows, not the gene from the map). -/
theorem processAllGenes_no_pairs_kept {α : Type} [LinearOrderedField α]
    (ops : NumOps α) (geneDataMap : List (String × GeneData α))
    (housekeeperName : String) (config : ProcessingConfig)
    (hkData : GeneData α)
    (hlookup : geneDataMap.lookup housekeeperName = some hkData)
    (p : String × GeneData α) (hp : p ∈ geneDataMap)
    (hne : p.1 ≠ housekeeperName)
    (hnopair : p.2.replicaGroups.zip hkData.replicaGroups = []) :
    ∃ res, processAllGenes ops geneDataMap housekeeperName config =
        Except.ok res ∧
      (p.1, (⟨p.2.name, [], 0⟩ : GeneProcessingResult α)) ∈ res := by
  refine ⟨geneDataMap.filterMap (fun q =>
      if q.1 = housekeeperName then none
      else some (q.1, processGene ops q.2 hkData config)), ?_, ?_⟩
  · unfold processAllGenes
    rw [hlookup]
  · refine List.mem_filterMap.mpr ⟨p, hp, ?_⟩
    rw [if_neg hne]
    have hrows : calculateProcessingRows ops p.2 hkData config = [] := by
      unfold calculateProcessingRows
      rw [hnopair]
      rfl
    unfold processGene
    rw [hrows]
    rfl

/-- Witness for C3 amended, at the counterexample's input over `ℝ`. -/
theorem processAllGenes_no_pairs_kept_witness :
    ([("GAPDH", (⟨"GAPDH", [], [⟨"S1", 1, [20]⟩]⟩ : GeneData ℝ)),
        ("TP53", ⟨"TP53", [], []⟩)].lookup "GAPDH" =
      some (⟨"GAPDH", [], [⟨"S1", 1, [20]⟩]⟩ : GeneData ℝ)) ∧
    ∃ res, processAllGenes realOps
        [("GAPDH", (⟨"GAPDH", [], [⟨"S1", 1, [20]⟩]⟩ : GeneData ℝ)),
         ("TP53", ⟨"TP53", [], []⟩)] "GAPDH" ⟨3, "GAPDH", ["S1"], []⟩ =
        Except.ok res ∧
      ("TP53", (⟨"TP53", [], 0⟩ : GeneProcessingResult ℝ)) ∈ res := by
  refine ⟨rfl, ?_⟩
  exact processAllGenes_no_pairs_kept realOps
    [("GAPDH", ⟨"GAPDH", [], [⟨"S1", 1, [20]⟩]⟩), ("TP53", ⟨"TP53", [], []⟩)]
    "GAPDH" ⟨3, "GAPDH", ["S1"], []⟩ ⟨"GAPDH", [], [⟨"S1", 1, [20]⟩]⟩ rfl
    ("TP53", ⟨"TP53", [], []⟩) (by simp) (by simp) rfl

/-- C5: `calculateControlAverage` is the arithmetic mean of
`controlFoldChange` over exactly the rows with a non-empty control name
and a strictly positive control fold change, and is exactly `1` when no
row qualifies (in particular for the empty table). -/
theorem calculateControlAverage_mean {α : Type} [LinearOrderedField α]
    (rows : List (FoldChangeTableRow α)) :
    calculateControlAverage rows =
      if (rows.filter fun r =>
          decide (r.controlName ≠ "" ∧ 0 < r.controlFoldChange)) = [] then 1
      else
        ((rows.filter fun r =>
            decide (r.controlName ≠ "" ∧ 0 < r.controlFoldChange)).map
          FoldChangeTableRow.controlFoldChange).sum /
        (((rows.filter fun r =>
            decide (r.controlName ≠ "" ∧ 0 < r.controlFoldChange)).length :
          α)) := by
  unfold calculateControlAverage
  by_cases hq : (rows.filter fun r =>
      decide (r.controlName ≠ "" ∧ 0 < r.controlFoldChange)) = []
  · rw [if_pos hq, hq]
    simp
  · rw [if_neg hq]
    have hlen : 0 < (rows.filter fun r =>
        decide (r.controlName ≠ "" ∧ 0 < r.controlFoldChange)).length :=
      List.length_pos.mpr hq
    rw [if_pos (by simpa using hlen)]
    simp only [mean, List.length_map]
    rw [if_neg (by omega), List.sum_eq_foldl]

/-- C6: `generateGeneOutput` stores the control average rounded to 4
decimal places, while every normalized row is the corresponding
fold-change row with both values divided by the unrounded control
average (with divisor `1` substituted when that average is exactly 0). -/
theorem generateGeneOutput_normalization {α : Type} [LinearOrderedField α]
    [FloorRing α] (result : GeneProcessingResult α)
    (controls allSamples : List String) :
    (generateGeneOutput result controls allSamples).controlAverage =
      roundTo (calculateControlAverage
        (generateGeneOutput result controls allSamples).foldChangeRows) 4 ∧
    (generateGeneOutput result controls allSamples).normalizedRows.length =
      (generateGeneOutput result controls allSamples).foldChangeRows.length ∧
    ∀ i, (generateGeneOutput result controls allSamples).normalizedRows.get? i
        =
      ((generateGeneOutput result controls
          allSamples).foldChangeRows.get? i).map fun row =>
        let ca := calculateControlAverage
          (generateGeneOutput result controls allSamples).foldChangeRows
        let divisor := if ca = 0 then 1 else ca
        { controlName := row.controlName
          normalizedControl := row.controlFoldChange / divisor
          observedName := row.observedName
          normalizedObserved := row.observedFoldChange / divisor } := by
  refine ⟨rfl, ?_, ?_⟩
  · unfold generateGeneOutput buildNormalizedTable
    simp
  · intro i
    unfold generateGeneOutput buildNormalizedTable
    simp [List.get?_map]

/-- `Math.pow(2, -0) = 1`. -/
theorem realOps_pow2neg_zero : realOps.pow2neg 0 = 1 := by
  simp [realOps]

/-- `Math.pow(2, -(-2)) = 4`. -/
theorem realOps_pow2neg_negTwo : realOps.pow2neg (-2) = 4 := by
  have h : (2 : ℝ) ^ ((2 : ℕ) : ℝ) = 4 := by
    rw [Real.rpow_natCast]; norm_num
  calc realOps.pow2neg (-2) = (2 : ℝ) ^ (-(-2 : ℝ)) := rfl
    _ = (2 : ℝ) ^ ((2 : ℕ) : ℝ) := by norm_num
    _ = 4 := h

/-- Scenario A housekeeper measurements: `GAPDH` CT values
`[20,20,20,22,22,22]` in row order. -/
def gapdhMsA : List (CtMeasurement ℝ) :=
  [⟨20, 0⟩, ⟨20, 1⟩, ⟨20, 2⟩, ⟨22, 3⟩, ⟨22, 4⟩, ⟨22, 5⟩]

/-- Scenario A target measurements: `TP53` CT values
`[25,25,25,25,25,25]` in row order. -/
def tp53MsA : List (CtMeasurement ℝ) :=
  [⟨25, 6⟩, ⟨25, 7⟩, ⟨25, 8⟩, ⟨25, 9⟩, ⟨25, 10⟩, ⟨25, 11⟩]

/-- Scenario A grouped housekeeper gene (2 samples × 3 replicas). -/
def gapdhA : GeneData ℝ :=
  ⟨"GAPDH", gapdhMsA, groupIntoReplicas gapdhMsA 3 ["S1", "S2"]⟩

/-- Scenario A grouped target gene (2 samples × 3 replicas). -/
def tp53A : GeneData ℝ :=
  ⟨"TP53", tp53MsA, groupIntoReplicas tp53MsA 3 ["S1", "S2"]⟩

/-- Scenario A processing configuration. -/
def configA : ProcessingConfig := ⟨3, "GAPDH", ["S1", "S2"], ["S1"]⟩

/-- C1, end-to-end scenario A: with housekeeper `GAPDH` CT values
`[20,20,20,22,22,22]` and target `TP53` CT values `[25,25,25,25,25,25]`
(2 samples × 3 replicas), the first sample's summary row has
`deltaCt = 5`, the reference baseline (the first ΔCt) is `5`,
`deltaDeltaCt = 0` and `foldChange = 1`, and the second sample's summary
row (position 4, after the three replica rows) has `deltaCt = 3`,
`deltaDeltaCt = -2` and `foldChange = 4`. -/
theorem scenarioA_values :
    (processGene realOps tp53A gapdhA configA).firstDeltaCt = 5 ∧
    ((processGene realOps tp53A gapdhA configA).rows.get? 0).map
        (fun r => (r.deltaCt, r.deltaDeltaCt, r.foldChange)) =
      some (5, 0, 1) ∧
    ((processGene realOps tp53A gapdhA configA).rows.get? 4).map
        (fun r => (r.deltaCt, r.deltaDeltaCt, r.foldChange)) =
      some (3, -2, 4) := by
  have e1 : mean [(25 : ℝ), 25, 25] = 25 := by norm_num [mean, List.foldl]
  have e2 : mean [(22 : ℝ), 22, 22] = 22 := by norm_num [mean, List.foldl]
  have e3 : mean [(20 : ℝ), 20, 20] = 20 := by norm_num [mean, List.foldl]
  refine ⟨?_, ?_, ?_⟩
  · have h : (processGene realOps tp53A gapdhA configA).firstDeltaCt =
        mean [(25 : ℝ), 25, 25] - mean [(20 : ℝ), 20, 20] := rfl
    rw [h, e1, e3]
    norm_num
  · have h : ((processGene realOps tp53A gapdhA configA).rows.get? 0).map
        (fun r => (r.deltaCt, r.deltaDeltaCt, r.foldChange)) =
        some (mean [(25 : ℝ), 25, 25] - mean [(20 : ℝ), 20, 20],
          (mean [(25 : ℝ), 25, 25] - mean [(20 : ℝ), 20, 20]) -
            (mean [(25 : ℝ), 25, 25] - mean [(20 : ℝ), 20, 20]),
          realOps.pow2neg
            ((mean [(25 : ℝ), 25, 25] - mean [(20 : ℝ), 20, 20]) -
              (mean [(25 : ℝ), 25, 25] - mean [(20 : ℝ), 20, 20]))) := rfl
    rw [h, e1, e3]
    rw [show ((25 : ℝ) - 20) - ((25 : ℝ) - 20) = (0 : ℝ) by norm_num,
      realOps_pow2neg_zero]
    norm_num
  · have h : ((processGene realOps tp53A gapdhA configA).rows.get? 4).map
        (fun r => (r.deltaCt, r.deltaDeltaCt, r.foldChange)) =
        some (mean [(25 : ℝ), 25, 25] - mean [(22 : ℝ), 22, 22],
          (mean [(25 : ℝ), 25, 25] - mean [(22 : ℝ), 22, 22]) -
            (mean [(25 : ℝ), 25, 25] - mean [(20 : ℝ), 20, 20]),
          realOps.pow2neg
            ((mean [(25 : ℝ), 25, 25] - mean [(22 : ℝ), 22, 22]) -
              (mean [(25 : ℝ), 25, 25] - mean [(20 : ℝ), 20, 20]))) := rfl
    rw [h, e1, e2, e3]
    rw [show ((25 : ℝ) - 22) - ((25 : ℝ) - 20) = (-2 : ℝ) by norm_num,
      realOps_pow2neg_negTwo]
    norm_num

/-- C9: whenever the target and housekeeper genes have at least one
paired sample, the first summary (non-replica) row emitted by
`calculateProcessingRows` has `deltaDeltaCt = 0` and `foldChange = 1`,
since the ΔΔCT baseline is that row's own ΔCt. -/
theorem firstSummaryRow_neutral (target hk : GeneData ℝ)
    (config : ProcessingConfig)
    (hpair : target.replicaGroups.zip hk.replicaGroups ≠ []) :
    ((calculateProcessingRows realOps target hk config).find?
        (fun r => !r.isReplicaRow)).map
      (fun r => (r.deltaDeltaCt, r.foldChange)) = some (0, 1) := by
  obtain ⟨p, rest, hp⟩ := List.exists_cons_of_ne_nil hpair
  unfold calculateProcessingRows
  rw [hp]
  rw [List.flatMap_cons, List.cons_append, List.find?_cons_of_pos _ (by rfl)]
  simp only [Option.map_some, List.map_cons, List.headD_cons]
  rw [sub_self]
  simp [foldChange, realOps_pow2neg_zero]

/-- Witness for C9 on a one-sample pair of genes over `ℝ`. -/
theorem firstSummaryRow_neutral_witness :
    ((⟨"T", [], [⟨"S1", 1, [25]⟩]⟩ : GeneData ℝ).replicaGroups.zip
        (⟨"H", [], [⟨"S1", 1, [20]⟩]⟩ : GeneData ℝ).replicaGroups ≠ []) ∧
    ((calculateProcessingRows realOps ⟨"T", [], [⟨"S1", 1, [25]⟩]⟩
          ⟨"H", [], [⟨"S1", 1, [20]⟩]⟩ ⟨3, "H", ["S1"], []⟩).find?
        (fun r => !r.isReplicaRow)).map
      (fun r => (r.deltaDeltaCt, r.foldChange)) = some (0, 1) := by
  have hne : ((⟨"T", [], [⟨"S1", 1, [25]⟩]⟩ : GeneData ℝ).replicaGroups.zip
      (⟨"H", [], [⟨"S1", 1, [20]⟩]⟩ : GeneData ℝ).replicaGroups ≠ []) := by
    simp
  exact ⟨hne, firstSummaryRow_neutral ⟨"T", [], [⟨"S1", 1, [25]⟩]⟩
    ⟨"H", [], [⟨"S1", 1, [20]⟩]⟩ ⟨3, "H", ["S1"], []⟩ hne⟩

/-- Invariant of one recorded measurement: it is never NaN and it stems
from a non-marker row of the input at its recorded row index. -/
def MeasOK (full : List RawDataRow) (ctCol : String) (mv : JSNum × ℕ) : Prop :=
  mv.1.isNaN = false ∧
  ∃ row, full.get? mv.2 = some row ∧ shouldIgnoreRow row = false ∧
    mv.1 = jsParseFloat (rowGet row ctCol)

/-- Invariant of one gene-map entry: the key never matches the marker
pattern and every measurement satisfies `MeasOK`. -/
def GoodEntry (full : List RawDataRow) (ctCol : String)
    (p : String × JSGeneData) : Prop :=
  isSampleMarker p.1 = false ∧ ∀ mv ∈ p.2.measurements, MeasOK full ctCol mv

/-- `insertMeasurement` preserves the gene-map invariant when the new
name and measurement satisfy it. -/
theorem insertMeasurement_good (full : List RawDataRow) (ctCol : String)
    (name : String) (v : JSNum) (idx : ℕ) :
    ∀ (acc : List (String × JSGeneData)),
      (∀ p ∈ acc, GoodEntry full ctCol p) →
      isSampleMarker name = false →
      MeasOK full ctCol (v, idx) →
      ∀ p ∈ insertMeasurement acc name v idx, GoodEntry full ctCol p := by
  intro acc
  induction acc with
  | nil =>
      intro _ hname hmv p hp
      simp only [insertMeasurement, List.mem_singleton] at hp
      subst hp
      exact ⟨hname, by
        intro mv hmv'
        simp only [List.mem_singleton] at hmv'
        subst hmv'
        exact hmv⟩
  | cons q rest ih =>
      intro hacc hname hmv p hp
      obtain ⟨n, g⟩ := q
      rw [insertMeasurement] at hp
      by_cases hn : n = name
      · rw [if_pos hn] at hp
        rcases List.mem_cons.mp hp with hhead | htail
        · subst hhead
          have hq := hacc (n, g) (List.mem_cons_self _ _)
          refine ⟨hq.1, ?_⟩
          intro mv hmv'
          rcases List.mem_append.mp hmv' with hold | hnew
          · exact hq.2 mv hold
          · simp only [List.mem_singleton] at hnew
            subst hnew
            exact hmv
        · exact hacc p (List.mem_cons_of_mem _ htail)
      · rw [if_neg hn] at hp
        rcases List.mem_cons.mp hp with hhead | htail
        · subst hhead
          exact hacc (n, g) (List.mem_cons_self _ _)
        · exact ih (fun r hr => hacc r (List.mem_cons_of_mem _ hr)) hname hmv
            p htail

/-- The extraction loop establishes the gene-map invariant for every
entry it produces. -/
theorem extractGo_good (full : List RawDataRow) (ctCol : String) :
    ∀ (suffix : List RawDataRow) (idx : ℕ) (acc : List (String × JSGeneData)),
      full.drop idx = suffix →
      (∀ p ∈ acc, GoodEntry full ctCol p) →
      ∀ p ∈ extractGo ctCol suffix idx acc, GoodEntry full ctCol p := by
  intro suffix
  induction suffix with
  | nil =>
      intro idx acc _ hacc p hp
      rw [extractGo] at hp
      exact hacc p hp
  | cons row rest ih =>
      intro idx acc hdrop hacc p hp
      have hrow : full.get? idx = some row := by
        have h0 : (full.drop idx).get? 0 = full.get? (idx + 0) :=
          List.get?_drop full idx 0
        rw [hdrop] at h0
        simpa using h0.symm
      have hrest : full.drop (idx + 1) = rest := by
        have h2 := List.drop_drop 1 idx full
        rw [hdrop] at h2
        simp at h2
        exact h2.symm
      rw [extractGo] at hp
      by_cases hig : shouldIgnoreRow row
      · rw [if_pos hig] at hp
        exact ih (idx + 1) acc hrest hacc p hp
      · rw [if_neg hig] at hp
        by_cases hname : rowGet row "Name" = ""
        · rw [if_pos hname] at hp
          exact ih (idx + 1) acc hrest hacc p hp
        · rw [if_neg hname] at hp
          by_cases hnan : (jsParseFloat (rowGet row ctCol)).isNaN
          · rw [if_pos hnan] at hp
            exact ih (idx + 1) acc hrest hacc p hp
          · rw [if_neg hnan] at hp
            refine ih (idx + 1) _ hrest ?_ p hp
            refine insertMeasurement_good full ctCol _ _ _ acc hacc ?_ ?_
            · have hig' : shouldIgnoreRow row = false := by
                simpa using hig
              simpa [shouldIgnoreRow] using hig'
            · exact ⟨by simpa using hnan, row, hrow, by simpa using hig, rfl⟩

/-- C8: no key of the gene map returned by `extractGeneData` matches the
`Sample`+number marker pattern, and every recorded measurement stems
from a row that is not a marker row — marker rows contribute no
measurement to any gene. -/
theorem extractGeneData_excludes_markers (data : ParsedTsvData)
    (res : List (String × JSGeneData))
    (hres : extractGeneData data = Except.ok res) :
    ∀ p ∈ res, isSampleMarker p.1 = false ∧
      ∀ mv ∈ p.2.measurements, ∃ row, data.rows.get? mv.2 = some row ∧
        shouldIgnoreRow row = false := by
  unfold extractGeneData at hres
  cases hdet : detectCtColumn data with
  | none => rw [hdet] at hres; cases hres
  | some ctCol =>
      rw [hdet] at hres
      have hgo : extractGo ctCol data.rows 0 [] = res := Except.ok.inj hres
      intro p hp
      rw [← hgo] at hp
      have hgood := extractGo_good data.rows ctCol data.rows 0 [] rfl
        (by intro q hq; cases hq) p hp
      refine ⟨hgood.1, ?_⟩
      intro mv hmv
      obtain ⟨row, hrow, hskip, _⟩ := (hgood.2 mv hmv).2
      exact ⟨row, hrow, hskip⟩

/-- Witness for C8: a dataset containing a `Sample 3` marker row yields
a gene map whose only key, `TP53`, does not match the marker pattern;
the marker row contributed nothing. -/
theorem extractGeneData_excludes_markers_witness :
    extractGeneData
        ⟨"t", ["Name", "CT"],
          [[("Name", "Sample 3"), ("CT", "25")],
           [("Name", "TP53"), ("CT", "25")],
           [("Name", "TP53"), ("CT", "xx")]]⟩ =
      Except.ok [("TP53", ⟨"TP53", [(JSNum.fin 25, 1)]⟩)] ∧
    isSampleMarker "TP53" = false ∧ isSampleMarker "Sample 3" = true := by
  refine ⟨rfl, ?_, by decide⟩
  exact (extractGeneData_excludes_markers
    ⟨"t", ["Name", "CT"],
      [[("Name", "Sample 3"), ("CT", "25")],
       [("Name", "TP53"), ("CT", "25")],
       [("Name", "TP53"), ("CT", "xx")]]⟩
    [("TP53", ⟨"TP53", [(JSNum.fin 25, 1)]⟩)] rfl
    ("TP53", ⟨"TP53", [(JSNum.fin 25, 1)]⟩) (by decide)).1

/-- C7 counterexample: a CT cell reading `Infinity` parses to a
non-finite, non-NaN number, and `extractGeneData` records it — rows
whose CT field parses to infinity are NOT skipped. -/
theorem extractGeneData_records_infinity_counterexample :
    extractGeneData
        ⟨"t", ["Name", "CT"], [[("Name", "TP53"), ("CT", "Infinity")]]⟩ =
      Except.ok [("TP53", ⟨"TP53", [(JSNum.inf, 0)]⟩)] ∧
    JSNum.inf.isFinite = false ∧ JSNum.inf.isNaN = false := by
  exact ⟨rfl, rfl, rfl⟩

/-- C7 amended: `extractGeneData` skips exactly the rows whose CT value
parses to NaN — no recorded measurement is NaN, but non-finite values
(±Infinity) are recorded, not skipped. -/
theorem extractGeneData_skips_nan (data : ParsedTsvData)
    (res : List (String × JSGeneData))
    (hres : extractGeneData data = Except.ok res) :
    ∀ p ∈ res, ∀ mv ∈ p.2.measurements, mv.1.isNaN = false := by
  unfold extractGeneData at hres
  cases hdet : detectCtColumn data with
  | none => rw [hdet] at hres; cases hres
  | some ctCol =>
      rw [hdet] at hres
      have hgo : extractGo ctCol data.rows 0 [] = res := Except.ok.inj hres
      intro p hp mv hmv
      rw [← hgo] at hp
      exact (extractGo_good data.rows ctCol data.rows 0 [] rfl
        (by intro q hq; cases hq) p hp).2 mv hmv |>.1

/-- Witness for C7 amended: in a dataset with one parsable row and one
unparsable row, the single recorded measurement is not NaN. -/
theorem extractGeneData_skips_nan_witness :
    extractGeneData
        ⟨"t", ["Name", "CT"],
          [[("Name", "TP53"), ("CT", "25")],
           [("Name", "TP53"), ("CT", "xx")]]⟩ =
      Except.ok [("TP53", ⟨"TP53", [(JSNum.fin 25, 0)]⟩)] ∧
    ((JSNum.fin 25, 0) : JSNum × ℕ).1.isNaN = false := by
  refine ⟨rfl, ?_⟩
  exact extractGeneData_skips_nan
    ⟨"t", ["Name", "CT"],
      [[("Name", "TP53"), ("CT", "25")], [("Name", "TP53"), ("CT", "xx")]]⟩
    [("TP53", ⟨"TP53", [(JSNum.fin 25, 0)]⟩)] rfl
    ("TP53", ⟨"TP53", [(JSNum.fin 25, 0)]⟩) (by decide)
    (JSNum.fin 25, 0) (by decide)

end Txt2gp
